import Mathlib

/-!
Shallow embedding of the SupplyChainAPP inventory-ledger core:
the atomic stock mutators (`addStock`, `move_stock`, `adjust_stock`,
`complete_pick`, `complete_pick_with_shortage`), the putaway task pull,
the wave commitment pre-check and wave creation, and the optimized pick
queue query, together with theorems settling the frozen claims about them.
Quantities are modelled as `Int` (SQL INTEGER), identifiers as `Nat`,
timestamps as `Nat`, and each table as a list of rows.
-/

namespace SupplyChain

/-- A row of the `inventory` table: stock of one product at one location. -/
structure InvRow where
  warehouse_id : Nat
  product_id : Nat
  location_id : Nat
  quantity : Int
  deriving Repr, DecidableEq

/-- Movement-log entry kinds (the `transaction_type` column). -/
inductive TxType
  | receive | putaway | pick | pack | ship | move | adjust | count | ret
  deriving Repr, DecidableEq

/-- A row of the `transactions` movement log. -/
structure TxEntry where
  warehouse_id : Nat
  transaction_type : TxType
  user_id : Nat
  product_id : Nat
  location_id_from : Option Nat := none
  location_id_to : Option Nat := none
  quantity : Int
  reference_id : Option Nat := none
  notes : Option String := none
  status : String := "completed"
  deriving Repr, DecidableEq

/-- Status of a shipment line (pick line). -/
inductive LineStatus
  | pending | allocated | picking | in_progress | picked | packed | short_picked
  deriving Repr, DecidableEq

/-- A row of the `shipment_lines` table. -/
structure ShipmentLine where
  id : Nat
  shipment_id : Nat
  product_id : Nat
  quantity : Int
  location_id : Nat
  status : LineStatus
  picked_by : Option Nat := none
  picked_at : Option Nat := none
  notes : Option String := none
  deriving Repr, DecidableEq

/-- A row of the `shipments` table (fields the core reads). -/
structure Shipment where
  id : Nat
  warehouse_id : Nat
  wave_id : Option Nat := none
  order_number : String := ""
  priority : Int := 0
  created_at : Nat := 0
  deriving Repr, DecidableEq

/-- A row of the `problem_tickets` table (fields written by short picks). -/
structure ProblemTicket where
  warehouse_id : Nat
  ticket_type : String
  status : String
  priority : String
  reference_type : Option String := none
  reference_id : Option Nat := none
  product_id : Option Nat := none
  location_id : Option Nat := none
  expected_quantity : Int
  actual_quantity : Int
  shortage_quantity : Int
  description : String := ""
  notes : Option String := none
  created_by : Nat
  deriving Repr, DecidableEq

/-- Status of a putaway task. -/
inductive TaskStatus
  | pending | in_progress | completed | cancelled
  deriving Repr, DecidableEq

/-- A row of the `putaway_tasks` table. -/
structure PutawayTask where
  id : Nat
  warehouse_id : Nat
  product_id : Nat
  from_location_id : Nat
  to_location_id : Nat
  quantity : Int
  assigned_to : Option Nat := none
  status : TaskStatus := .pending
  started_at : Option Nat := none
  completed_at : Option Nat := none
  deriving Repr, DecidableEq

/-- A row of the `waves` table (fields written by `createWave`). -/
structure Wave where
  id : Nat
  warehouse_id : Nat
  wave_number : String
  status : String
  total_shipments : Nat
  deriving Repr, DecidableEq

/-- A row of the `products` table (fields the core reads). -/
structure Product where
  id : Nat
  sku : String
  name : String := ""
  deriving Repr, DecidableEq

/-- A row of the `locations` table (fields the pick queue reads). -/
structure Location where
  id : Nat
  warehouse_id : Nat
  barcode : String := ""
  zone : String := ""
  aisle : String := ""
  section_ : String := ""
  deriving Repr, DecidableEq

/-- The database state seen by the core operations. -/
structure DB where
  inventory : List InvRow := []
  transactions : List TxEntry := []
  shipments : List Shipment := []
  shipment_lines : List ShipmentLine := []
  problem_tickets : List ProblemTicket := []
  putaway_tasks : List PutawayTask := []
  waves : List Wave := []
  products : List Product := []
  locations : List Location := []
  deriving Repr, DecidableEq

/-- Typed failures of the core operations, one per distinct RAISE/throw site. -/
inductive OpError
  | InvalidQuantity
  | SourceNotFound
  | InsufficientStock
  | NegativeResult
  | CannotCreateNegative
  | NotAssigned
  | InventoryNotFound
  | ActualQtyNegative
  | ActualQtyExceedsExpected
  | AlreadyAssignedOrNotFound
  deriving Repr, DecidableEq

/-- Does an inventory row match the (warehouse, product, location) key? -/
def rowKeyMatches (r : InvRow) (w p l : Nat) : Bool :=
  r.warehouse_id == w && r.product_id == p && r.location_id == l

/-- SELECT the inventory row for a (warehouse, product, location) key. -/
def findRow (inv : List InvRow) (w p l : Nat) : Option InvRow :=
  inv.find? (fun r => rowKeyMatches r w p l)

/-- UPDATE the quantity of the inventory row(s) matching the key. -/
def setQty (inv : List InvRow) (w p l : Nat) (q : Int) : List InvRow :=
  inv.map (fun r => if rowKeyMatches r w p l then { r with quantity := q } else r)

/-- Observed quantity at a key (0 when no row exists). -/
def qtyAt (inv : List InvRow) (w p l : Nat) : Int :=
  match findRow inv w p l with
  | some r => r.quantity
  | none => 0

/-- The `receive` log entry written by `addStock`. -/
def receiveTx (w p l : Nat) (qty : Int) (user : Nat) (ref : Option Nat) : TxEntry :=
  { warehouse_id := w, transaction_type := .receive, user_id := user,
    product_id := p, location_id_to := some l, quantity := qty,
    reference_id := ref }

/-- Embedding of `addStock` (inventory service): validates `qty > 0`,
increments or creates the ledger row, then writes a `receive` log entry.
The source checks the log-insert result but deliberately does not fail the
operation when the log write fails; `logOk` models whether that insert
succeeded. Returns the new quantity. -/
def addStock (db : DB) (w p l : Nat) (qty : Int) (user : Nat)
    (ref : Option Nat) (logOk : Bool) : Except OpError (DB × Int) :=
  if qty ≤ 0 then .error .InvalidQuantity
  else
    match findRow db.inventory w p l with
    | some existing =>
      if logOk then
        .ok ({ db with inventory := setQty db.inventory w p l (existing.quantity + qty),
                       transactions := receiveTx w p l qty user ref :: db.transactions },
             existing.quantity + qty)
      else
        .ok ({ db with inventory := setQty db.inventory w p l (existing.quantity + qty) },
             existing.quantity + qty)
    | none =>
      if logOk then
        .ok ({ db with inventory := (⟨w, p, l, qty⟩ : InvRow) :: db.inventory,
                       transactions := receiveTx w p l qty user ref :: db.transactions },
             qty)
      else
        .ok ({ db with inventory := (⟨w, p, l, qty⟩ : InvRow) :: db.inventory }, qty)

/-- The `move` log entry written by `move_stock`. -/
def moveTx (w p from_ to_ : Nat) (qty : Int) (user : Nat) : TxEntry :=
  { warehouse_id := w, transaction_type := .move, user_id := user,
    product_id := p, location_id_from := some from_, location_id_to := some to_,
    quantity := qty }

/-- Embedding of the `move_stock` stored procedure: validates `qty > 0`,
locks the source row (SourceNotFound if absent, InsufficientStock if
`source.quantity < qty`), decrements the source, increments or creates the
destination, and logs one `move` entry — all in one atomic unit. -/
def move_stock (db : DB) (w p from_ to_ : Nat) (qty : Int) (user : Nat) :
    Except OpError DB :=
  if qty ≤ 0 then .error .InvalidQuantity
  else
    match findRow db.inventory w p from_ with
    | none => .error .SourceNotFound
    | some src =>
      if src.quantity < qty then .error .InsufficientStock
      else
        match findRow (setQty db.inventory w p from_ (src.quantity - qty)) w p to_ with
        | some dst =>
          .ok { db with
                inventory := setQty (setQty db.inventory w p from_ (src.quantity - qty))
                  w p to_ (dst.quantity + qty),
                transactions := moveTx w p from_ to_ qty user :: db.transactions }
        | none =>
          .ok { db with
                inventory := (⟨w, p, to_, qty⟩ : InvRow) ::
                  setQty db.inventory w p from_ (src.quantity - qty),
                transactions := moveTx w p from_ to_ qty user :: db.transactions }

/-- The `adjust` log entry written by `adjust_stock`. -/
def adjustTx (w p l : Nat) (delta : Int) (user : Nat) (reason : String) : TxEntry :=
  { warehouse_id := w, transaction_type := .adjust, user_id := user,
    product_id := p, location_id_from := some l, location_id_to := some l,
    quantity := delta, notes := some reason }

/-- Embedding of the `adjust_stock` stored procedure. The new quantity is
`existing + delta` (or `delta` when the row is absent); the negative-result
check runs before the cannot-create check, exactly as in the source. -/
def adjust_stock (db : DB) (w p l : Nat) (delta : Int) (user : Nat)
    (reason : String) : Except OpError (DB × Int) :=
  match findRow db.inventory w p l with
  | some cur =>
    if cur.quantity + delta < 0 then .error .NegativeResult
    else
      .ok ({ db with inventory := setQty db.inventory w p l (cur.quantity + delta),
                     transactions := adjustTx w p l delta user reason :: db.transactions },
           cur.quantity + delta)
  | none =>
    if delta < 0 then .error .NegativeResult
    else if delta ≤ 0 then .error .CannotCreateNegative
    else
      .ok ({ db with inventory := (⟨w, p, l, delta⟩ : InvRow) :: db.inventory,
                     transactions := adjustTx w p l delta user reason :: db.transactions },
           delta)

/-- The row-locked read at the head of both pick procedures: the shipment
line with the given id, already assigned to the user (`picked_by`) and in
status `in_progress`, joined with its shipment. -/
def findPickLine (db : DB) (lineId userId : Nat) : Option (ShipmentLine × Shipment) :=
  match db.shipment_lines.find?
      (fun sl => sl.id == lineId && decide (sl.picked_by = some userId) &&
                 decide (sl.status = LineStatus.in_progress)) with
  | none => none
  | some sl =>
    match db.shipments.find? (fun s => s.id == sl.shipment_id) with
    | none => none
    | some s => some (sl, s)

/-- UPDATE the shipment line(s) with the given id. -/
def setLine (lines : List ShipmentLine) (lineId : Nat)
    (f : ShipmentLine → ShipmentLine) : List ShipmentLine :=
  lines.map (fun sl => if sl.id == lineId then f sl else sl)

/-- SELECT the first shipment line with the given id. -/
def lineById (db : DB) (lineId : Nat) : Option ShipmentLine :=
  db.shipment_lines.find? (fun sl => sl.id == lineId)

/-- The `pick` log entry written by `complete_pick`. -/
def pickTx (w user p l : Nat) (qty : Int) (shipId : Nat) (notes : Option String) : TxEntry :=
  { warehouse_id := w, transaction_type := .pick, user_id := user,
    product_id := p, location_id_from := some l, quantity := qty,
    reference_id := some shipId, notes := notes }

/-- The line update applied by a full pick. -/
def pickedLineUpdate (now : Nat) (sl : ShipmentLine) : ShipmentLine :=
  { sl with status := .picked, picked_at := some now }

/-- Embedding of the `complete_pick` stored procedure: requires the line
to be in progress and assigned to the caller, requires the ledger row at
the line's location to cover `line.quantity`, decrements it, marks the
line picked, and logs one `pick` entry. Returns the new ledger quantity. -/
def complete_pick (db : DB) (lineId userId now : Nat) : Except OpError (DB × Int) :=
  match findPickLine db lineId userId with
  | none => .error .NotAssigned
  | some (line, s) =>
    match findRow db.inventory s.warehouse_id line.product_id line.location_id with
    | none => .error .InventoryNotFound
    | some inv =>
      if inv.quantity - line.quantity < 0 then .error .InsufficientStock
      else
        .ok ({ db with
                inventory := setQty db.inventory s.warehouse_id line.product_id
                  line.location_id (inv.quantity - line.quantity),
                shipment_lines := setLine db.shipment_lines lineId (pickedLineUpdate now),
                transactions := pickTx s.warehouse_id userId line.product_id line.location_id
                  line.quantity line.shipment_id none :: db.transactions },
             inv.quantity - line.quantity)

/-- Append the short-pick annotation to a line's notes, as
`COALESCE(notes || newline, empty) || annotation` does in the source. -/
def appendShortNote (notes : Option String) (shortage : Int) : Option String :=
  let msg := "Short picked: " ++ toString shortage ++ " units missing"
  match notes with
  | some n => some (n ++ "\n" ++ msg)
  | none => some msg

/-- The line update applied by a short pick: truncate to the actual
quantity, mark short_picked, stamp picked_at, annotate the notes. -/
def shortLineUpdate (actualQty shortage : Int) (now : Nat) (sl : ShipmentLine) : ShipmentLine :=
  { sl with quantity := actualQty, status := .short_picked, picked_at := some now,
            notes := appendShortNote sl.notes shortage }

/-- The problem ticket created by a short pick. -/
def shortPickTicket (line : ShipmentLine) (s : Shipment) (actualQty : Int)
    (reason : Option String) (userId : Nat) : ProblemTicket :=
  { warehouse_id := s.warehouse_id, ticket_type := "short_pick", status := "open",
    priority := "high", reference_type := some "shipment_line",
    reference_id := some line.id, product_id := some line.product_id,
    location_id := some line.location_id, expected_quantity := line.quantity,
    actual_quantity := actualQty, shortage_quantity := line.quantity - actualQty,
    description := "Short pick for order " ++ s.order_number,
    notes := reason, created_by := userId }

/-- Result record of `complete_pick_with_shortage`. -/
structure ShortPickResult where
  actual_quantity : Int
  shortage : Int
  new_inventory_qty : Int
  deriving Repr, DecidableEq

/-- Embedding of the `complete_pick_with_shortage` stored procedure: same
line/ownership precondition as `complete_pick`; validates
`0 ≤ actualQty ≤ line.quantity`; decrements the ledger by `actualQty`;
when `actualQty < line.quantity` truncates the line to `actualQty`, marks
it `short_picked` and creates one open `short_pick` problem ticket,
otherwise marks the line `picked`; always logs one `pick` entry for
`actualQty` units — all in one atomic unit. -/
def complete_pick_with_shortage (db : DB) (lineId userId : Nat) (actualQty : Int)
    (reason : Option String) (now : Nat) : Except OpError (DB × ShortPickResult) :=
  match findPickLine db lineId userId with
  | none => .error .NotAssigned
  | some (line, s) =>
    if actualQty < 0 then .error .ActualQtyNegative
    else if line.quantity < actualQty then .error .ActualQtyExceedsExpected
    else
      match findRow db.inventory s.warehouse_id line.product_id line.location_id with
      | none => .error .InventoryNotFound
      | some inv =>
        if inv.quantity - actualQty < 0 then .error .InsufficientStock
        else if 0 < line.quantity - actualQty then
          .ok ({ db with
                  inventory := setQty db.inventory s.warehouse_id line.product_id
                    line.location_id (inv.quantity - actualQty),
                  shipment_lines := setLine db.shipment_lines lineId
                    (shortLineUpdate actualQty (line.quantity - actualQty) now),
                  problem_tickets := shortPickTicket line s actualQty reason userId ::
                    db.problem_tickets,
                  transactions := pickTx s.warehouse_id userId line.product_id line.location_id
                    actualQty line.shipment_id
                    (some ("Short pick: " ++ toString (line.quantity - actualQty) ++ " units short")) ::
                    db.transactions },
               ⟨actualQty, line.quantity - actualQty, inv.quantity - actualQty⟩)
        else
          .ok ({ db with
                  inventory := setQty db.inventory s.warehouse_id line.product_id
                    line.location_id (inv.quantity - actualQty),
                  shipment_lines := setLine db.shipment_lines lineId (pickedLineUpdate now),
                  transactions := pickTx s.warehouse_id userId line.product_id line.location_id
                    actualQty line.shipment_id none :: db.transactions },
               ⟨actualQty, line.quantity - actualQty, inv.quantity - actualQty⟩)

/-- SELECT the pending putaway task with the given id (the WHERE clause of
the conditional update in `pullPutawayTask`). -/
def findPendingTask (db : DB) (taskId : Nat) : Option PutawayTask :=
  db.putaway_tasks.find?
    (fun t => t.id == taskId && decide (t.status = TaskStatus.pending))

/-- The conditional update applied by `pullPutawayTask` to each task row:
only the row that is still pending with the given id is changed, and only
its `status` and `assigned_to` columns are written. -/
def pullUpdate (taskId userId : Nat) (u : PutawayTask) : PutawayTask :=
  if u.id == taskId && decide (u.status = TaskStatus.pending)
  then { u with status := TaskStatus.in_progress, assigned_to := some userId }
  else u

/-- Embedding of `pullPutawayTask` (putaway service): a conditional update
that succeeds only when the task is still `pending`; on success it sets
`status := in_progress` and `assigned_to := userId` (the source sets no
other column); otherwise the single-row select fails. -/
def pullPutawayTask (db : DB) (taskId userId : Nat) :
    Except OpError (DB × PutawayTask) :=
  match findPendingTask db taskId with
  | none => .error .AlreadyAssignedOrNotFound
  | some t =>
    let t2 := { t with status := TaskStatus.in_progress, assigned_to := some userId }
    .ok ({ db with putaway_tasks := db.putaway_tasks.map (pullUpdate taskId userId) }, t2)

/-- One shortage entry of the commitment pre-check result. -/
structure Shortage where
  product_id : Nat
  sku : String
  missing_qty : Int
  deriving Repr, DecidableEq

/-- Result of the commitment pre-check. -/
structure InventoryCheckResult where
  can_fulfill : Bool
  shortages : List Shortage
  deriving Repr, DecidableEq

/-- The sku shown for a product (the joined `products.sku`, or UNKNOWN). -/
def skuOf (db : DB) (pid : Nat) : String :=
  match db.products.find? (fun pr => pr.id == pid) with
  | some pr => pr.sku
  | none => "UNKNOWN"

/-- Add one line's quantity to the per-product requirements accumulator,
keeping the sku recorded at first insertion, as the source's record
object does. -/
def addRequirement (reqs : List (Nat × Int × String)) (pid : Nat) (qty : Int)
    (sku : String) : List (Nat × Int × String) :=
  if reqs.any (fun r => r.1 == pid) then
    reqs.map (fun r => if r.1 == pid then (r.1, r.2.1 + qty, r.2.2) else r)
  else reqs ++ [(pid, qty, sku)]

/-- Aggregate required quantity per product across the lines of the given
shipments, in first-appearance order. -/
def requirementsOf (db : DB) (shipmentIds : List Nat) : List (Nat × Int × String) :=
  (db.shipment_lines.filter (fun sl => shipmentIds.contains sl.shipment_id)).foldl
    (fun reqs sl => addRequirement reqs sl.product_id sl.quantity (skuOf db sl.product_id))
    []

/-- Total ledger quantity of a product summed over every inventory row of
that product — the source filters on `product_id` only, with no warehouse
restriction. -/
def totalAvail (db : DB) (pid : Nat) : Int :=
  (db.inventory.filter (fun r => r.product_id == pid)).foldl
    (fun s r => s + r.quantity) 0

/-- Embedding of `preCheckInventoryCommitment` (wave service): aggregates
demand per product over the shipments' lines, compares with the summed
ledger quantity of the product, and reports one shortage entry per
under-supplied product. -/
def preCheckInventoryCommitment (db : DB) (shipmentIds : List Nat) :
    InventoryCheckResult :=
  let reqs := requirementsOf db shipmentIds
  let shortages := reqs.filterMap (fun r =>
    if totalAvail db r.1 < r.2.1 then
      some ⟨r.1, r.2.2, r.2.1 - totalAvail db r.1⟩
    else none)
  ⟨shortages.isEmpty, shortages⟩

/-- The shipment update `createWave` applies on success: set `wave_id` on
every proposed shipment. -/
def attachWave (shipmentIds : List Nat) (waveId : Nat) (s : Shipment) : Shipment :=
  if shipmentIds.contains s.id then { s with wave_id := some waveId } else s

/-- Embedding of `createWave` (wave service): inserts the wave row first
(status `pending`, `total_shipments` = number of proposed shipments); when
the shipment list is non-empty it then runs the commitment pre-check and
either attaches the shipments (sets their `wave_id`) or raises — the wave
row inserted at the start is not removed on failure. Returns the state
after the call together with the outcome. -/
def createWave (db : DB) (warehouseId : Nat) (shipmentIds : List Nat)
    (waveId : Nat) (waveNumber : String) : DB × Except String Wave :=
  if shipmentIds.isEmpty then
    ({ db with waves := (⟨waveId, warehouseId, waveNumber, "pending", shipmentIds.length⟩ : Wave) :: db.waves },
     .ok ⟨waveId, warehouseId, waveNumber, "pending", shipmentIds.length⟩)
  else if (preCheckInventoryCommitment
      { db with waves := (⟨waveId, warehouseId, waveNumber, "pending", shipmentIds.length⟩ : Wave) :: db.waves }
      shipmentIds).can_fulfill then
    ({ db with waves := (⟨waveId, warehouseId, waveNumber, "pending", shipmentIds.length⟩ : Wave) :: db.waves,
               shipments := db.shipments.map (attachWave shipmentIds waveId) },
     .ok ⟨waveId, warehouseId, waveNumber, "pending", shipmentIds.length⟩)
  else
    ({ db with waves := (⟨waveId, warehouseId, waveNumber, "pending", shipmentIds.length⟩ : Wave) :: db.waves },
     .error "Inventory Shortage: Cannot release wave.")

/-- One output row of the optimized pick queue (the joined SELECT list,
plus the shipment creation time the ORDER BY reads). -/
structure PickQueueRow where
  line_id : Nat
  shipment_id : Nat
  order_number : String
  product_id : Nat
  product_name : String
  product_sku : String
  location_id : Nat
  location_barcode : String
  zone : String
  aisle : String
  section_ : String
  quantity : Int
  priority : Int
  created_at : Nat
  deriving Repr, DecidableEq

/-- The joined, filtered (pre-ORDER BY) rows of `get_optimized_pick_queue`:
pending shipment lines of the warehouse (and wave, when given), inner
joined with shipment, product and location. -/
def pickQueueRows (db : DB) (w : Nat) (waveId : Option Nat) : List PickQueueRow :=
  db.shipment_lines.filterMap (fun sl =>
    match db.shipments.find? (fun s => s.id == sl.shipment_id),
          db.products.find? (fun pr => pr.id == sl.product_id),
          db.locations.find? (fun l => l.id == sl.location_id) with
    | some s, some pr, some l =>
      if s.warehouse_id == w && decide (sl.status = LineStatus.pending) &&
         (match waveId with
          | none => true
          | some wv => decide (s.wave_id = some wv)) then
        some ⟨sl.id, s.id, s.order_number, pr.id, pr.name, pr.sku,
              l.id, l.barcode, l.zone, l.aisle, l.section_,
              sl.quantity, s.priority, s.created_at⟩
      else none
    | _, _, _ => none)

/-- The ORDER BY key of `get_optimized_pick_queue`: zone, aisle, section
ascending (TEXT compared as its character sequence), then priority
descending (negated), then creation time ascending. -/
def queueKey (r : PickQueueRow) :
    List Char ×ₗ List Char ×ₗ List Char ×ₗ Int ×ₗ Nat :=
  toLex (r.zone.data,
    toLex (r.aisle.data, toLex (r.section_.data, toLex (-r.priority, r.created_at))))

/-- The row ordering produced by the ORDER BY clause. -/
def queueLE (a b : PickQueueRow) : Prop :=
  queueKey a ≤ queueKey b

instance queueLE.instDecidableRel : DecidableRel queueLE :=
  fun a b => inferInstanceAs (Decidable (queueKey a ≤ queueKey b))

instance queueLE.instIsTotal : IsTotal PickQueueRow queueLE :=
  ⟨fun a b => le_total (queueKey a) (queueKey b)⟩

instance queueLE.instIsTrans : IsTrans PickQueueRow queueLE :=
  ⟨fun _ _ _ hab hbc => le_trans hab hbc⟩

/-- Embedding of `get_optimized_pick_queue`: the filtered join, stably
sorted by zone, aisle, section ascending, shipment priority descending,
shipment creation time ascending. -/
def get_optimized_pick_queue (db : DB) (w : Nat) (waveId : Option Nat) :
    List PickQueueRow :=
  List.insertionSort queueLE (pickQueueRows db w waveId)

/-- Every ledger row has a non-negative quantity. -/
def NonNeg (db : DB) : Prop := ∀ r ∈ db.inventory, 0 ≤ r.quantity

/-- One mutator call of the non-negativity claim: Receive, Move, Adjust or
CompletePick, with its arguments (for Receive, also whether the log insert
succeeds). -/
inductive Op
  | receive (w p l : Nat) (qty : Int) (user : Nat) (ref : Option Nat) (logOk : Bool)
  | move (w p from_ to_ : Nat) (qty : Int) (user : Nat)
  | adjust (w p l : Nat) (delta : Int) (user : Nat) (reason : String)
  | completePick (lineId userId now : Nat)

/-- Observed state after one mutator call: the new state on success, the
unchanged state on failure (every operation is all-or-nothing). -/
def applyOp (db : DB) (op : Op) : DB :=
  match op with
  | .receive w p l qty user ref logOk =>
    match addStock db w p l qty user ref logOk with
    | .ok (db2, _) => db2
    | .error _ => db
  | .move w p from_ to_ qty user =>
    match move_stock db w p from_ to_ qty user with
    | .ok db2 => db2
    | .error _ => db
  | .adjust w p l delta user reason =>
    match adjust_stock db w p l delta user reason with
    | .ok (db2, _) => db2
    | .error _ => db
  | .completePick lineId userId now =>
    match complete_pick db lineId userId now with
    | .ok (db2, _) => db2
    | .error _ => db

/-- Observed state after `complete_pick_with_shortage` (unchanged on
failure: the whole unit rolls back). -/
def runShortPick (db : DB) (lineId userId : Nat) (actualQty : Int)
    (reason : Option String) (now : Nat) : DB :=
  match complete_pick_with_shortage db lineId userId actualQty reason now with
  | .ok (db2, _) => db2
  | .error _ => db

/-- Demand for one product summed over a list of shipment lines. -/
def linesDemand : List ShipmentLine → Nat → Int
  | [], _ => 0
  | sl :: t, pid => (if sl.product_id == pid then sl.quantity else 0) + linesDemand t pid

/-- Aggregate demand for a product over the lines of the given shipments. -/
def demandOf (db : DB) (shipmentIds : List Nat) (pid : Nat) : Int :=
  linesDemand (db.shipment_lines.filter (fun sl => shipmentIds.contains sl.shipment_id)) pid

/-- Requirement quantity recorded for a product in the accumulator (the
first entry with that key, 0 when none). -/
def reqQty : List (Nat × Int × String) → Nat → Int
  | [], _ => 0
  | r :: t, pid => if r.1 == pid then r.2.1 else reqQty t pid

/-- A product has an entry in the requirements accumulator. -/
def hasKey (reqs : List (Nat × Int × String)) (pid : Nat) : Prop :=
  ∃ e ∈ reqs, e.1 = pid

/-- Modelled from the spec: ledger supply of a product summed over the
locations of ONE warehouse ("sum ledger quantity across all locations in
the warehouse"); compared against the source's `totalAvail`, which ignores
the warehouse. -/
def specWarehouseSupply (db : DB) (wh pid : Nat) : Int :=
  ((db.inventory.filter (fun r => r.warehouse_id == wh && r.product_id == pid)).map
      (fun r => r.quantity)).sum

/- Example states used to evaluate the claims on concrete inputs. -/

/-- A ledger with a single row of 5 units. -/
def dbOneRow : DB := { inventory := [⟨1, 1, 1, 5⟩] }

/-- The empty database. -/
def dbEmpty : DB := {}

/-- Concrete mutator sequence exercising receive, move, adjust and pick. -/
def opsC1 : List Op :=
  [.receive 1 1 2 4 9 none true, .move 1 1 1 2 3 7,
   .adjust 1 1 1 (-2) 9 "cycle count", .completePick 10 7 99]

/-- The in-progress pick line of the pick examples. -/
def exLine : ShipmentLine :=
  { id := 10, shipment_id := 20, product_id := 1, quantity := 5,
    location_id := 1, status := .in_progress, picked_by := some 7 }

/-- The shipment of the pick examples. -/
def exShip : Shipment := { id := 20, warehouse_id := 1, order_number := "ORD1" }

/-- A state with an assigned in-progress pick line and 8 units on hand. -/
def dbPick : DB :=
  { inventory := [⟨1, 1, 1, 8⟩], shipments := [exShip], shipment_lines := [exLine] }

/-- A state with an assigned in-progress pick line but no ledger row. -/
def dbPickNoInv : DB :=
  { shipments := [exShip], shipment_lines := [exLine] }

/-- A pending putaway task with `started_at` unset. -/
def exTask : PutawayTask :=
  { id := 5, warehouse_id := 1, product_id := 1, from_location_id := 1,
    to_location_id := 2, quantity := 3 }

/-- A state with one pending putaway task. -/
def dbTask : DB := { putaway_tasks := [exTask] }

/-- The commitment-gate scenario: two shipments each demanding 10 units of
product 1 while the ledger holds 7 + 8 = 15 units in warehouse 1. -/
def dbGate : DB :=
  { products := [⟨1, "X", "Product X"⟩],
    shipments := [{ id := 100, warehouse_id := 1 }, { id := 101, warehouse_id := 1 }],
    shipment_lines :=
      [{ id := 1, shipment_id := 100, product_id := 1, quantity := 10,
         location_id := 1, status := .pending },
       { id := 2, shipment_id := 101, product_id := 1, quantity := 10,
         location_id := 2, status := .pending }],
    inventory := [⟨1, 1, 1, 7⟩, ⟨1, 1, 2, 8⟩] }

/-- Cross-warehouse state: warehouse 1 demands 10 of product 1 but holds
only 5; another 10 units sit in warehouse 2. -/
def dbCross : DB :=
  { products := [⟨1, "X", "Product X"⟩],
    shipments := [{ id := 100, warehouse_id := 1 }],
    shipment_lines :=
      [{ id := 1, shipment_id := 100, product_id := 1, quantity := 10,
         location_id := 1, status := .pending }],
    inventory := [⟨1, 1, 1, 5⟩, ⟨2, 1, 9, 10⟩] }

/-- The queue-ordering scenario: three pending lines at (zone A, aisle 1,
priority 5), (zone A, aisle 2, priority 1) and (zone B, aisle 1,
priority 9). -/
def dbQueue : DB :=
  { products := [⟨1, "X", "Product X"⟩],
    locations :=
      [{ id := 1, warehouse_id := 1, barcode := "A1", zone := "A", aisle := "1", section_ := "1" },
       { id := 2, warehouse_id := 1, barcode := "A2", zone := "A", aisle := "2", section_ := "1" },
       { id := 3, warehouse_id := 1, barcode := "B1", zone := "B", aisle := "1", section_ := "1" }],
    shipments :=
      [{ id := 100, warehouse_id := 1, order_number := "O1", priority := 5, created_at := 1 },
       { id := 101, warehouse_id := 1, order_number := "O2", priority := 1, created_at := 2 },
       { id := 102, warehouse_id := 1, order_number := "O3", priority := 9, created_at := 3 }],
    shipment_lines :=
      [{ id := 3, shipment_id := 102, product_id := 1, quantity := 1,
         location_id := 3, status := .pending },
       { id := 2, shipment_id := 101, product_id := 1, quantity := 1,
         location_id := 2, status := .pending },
       { id := 1, shipment_id := 100, product_id := 1, quantity := 1,
         location_id := 1, status := .pending }] }

/-- Observed state after a `move_stock` call (unchanged on failure). -/
def runMove (db : DB) (w p from_ to_ : Nat) (qty : Int) (user : Nat) : DB :=
  match move_stock db w p from_ to_ qty user with
  | .ok db2 => db2
  | .error _ => db

/-- The ledger row of `dbOneRow` after adding 4 units. -/
def dbAdded : DB := { inventory := [⟨1, 1, 1, 9⟩] }

/-- `exTask` after a successful pull by user 7. -/
def exTaskPulled : PutawayTask :=
  { exTask with status := .in_progress, assigned_to := some 7 }

/-- `dbTask` after a successful pull by user 7. -/
def dbTaskPulled : DB := { putaway_tasks := [exTaskPulled] }

/-- The state `dbPick` after a successful full pick of line 10 by user 7
at time 99. -/
def dbPicked : DB :=
  { inventory := [⟨1, 1, 1, 3⟩],
    shipments := [exShip],
    shipment_lines := [{ exLine with status := .picked, picked_at := some 99 }],
    transactions := [pickTx 1 7 1 1 5 20 none] }

/-- The pick-queue row of `dbQueue` at zone A, aisle 1 (priority 5). -/
def exRowA1 : PickQueueRow :=
  ⟨1, 100, "O1", 1, "Product X", "X", 1, "A1", "A", "1", "1", 1, 5, 1⟩

/-- The pick-queue row of `dbQueue` at zone A, aisle 2 (priority 1). -/
def exRowA2 : PickQueueRow :=
  ⟨2, 101, "O2", 1, "Product X", "X", 2, "A2", "A", "2", "1", 1, 1, 2⟩

/-- The pick-queue row of `dbQueue` at zone B, aisle 1 (priority 9). -/
def exRowB1 : PickQueueRow :=
  ⟨3, 102, "O3", 1, "Product X", "X", 3, "B1", "B", "1", "1", 1, 9, 3⟩

/- Toolbox lemmas about the ledger primitives. -/

theorem rowKeyMatches_quantity (r : InvRow) (w p l : Nat) (q : Int) :
    rowKeyMatches { r with quantity := q } w p l = rowKeyMatches r w p l := rfl

theorem rowKeyMatches_eq_true {r : InvRow} {w p l : Nat} :
    rowKeyMatches r w p l = true ↔
      r.warehouse_id = w ∧ r.product_id = p ∧ r.location_id = l := by
  simp [rowKeyMatches, and_assoc]

theorem findRow_nil (w p l : Nat) : findRow [] w p l = none := rfl

theorem findRow_cons_pos {a : InvRow} (t : List InvRow) {w p l : Nat}
    (h : rowKeyMatches a w p l = true) : findRow (a :: t) w p l = some a := by
  simp [findRow, List.find?_cons, h]

theorem findRow_cons_neg {a : InvRow} (t : List InvRow) {w p l : Nat}
    (h : rowKeyMatches a w p l = false) : findRow (a :: t) w p l = findRow t w p l := by
  simp [findRow, List.find?_cons, h]

theorem findRow_some_matches {inv : List InvRow} {w p l : Nat} {r : InvRow}
    (h : findRow inv w p l = some r) : rowKeyMatches r w p l = true := by
  induction inv with
  | nil => simp [findRow_nil] at h
  | cons a t ih =>
    by_cases ha : rowKeyMatches a w p l
    · rw [findRow_cons_pos t ha] at h
      cases h
      exact ha
    · rw [findRow_cons_neg t (Bool.eq_false_iff.mpr ha)] at h
      exact ih h

theorem findRow_some_mem {inv : List InvRow} {w p l : Nat} {r : InvRow}
    (h : findRow inv w p l = some r) : r ∈ inv := by
  induction inv with
  | nil => simp [findRow_nil] at h
  | cons a t ih =>
    by_cases ha : rowKeyMatches a w p l
    · rw [findRow_cons_pos t ha] at h
      cases h
      exact List.mem_cons_self _ _
    · rw [findRow_cons_neg t (Bool.eq_false_iff.mpr ha)] at h
      exact List.mem_cons_of_mem _ (ih h)

theorem setQty_cons (a : InvRow) (t : List InvRow) (w p l : Nat) (q : Int) :
    setQty (a :: t) w p l q =
      (if rowKeyMatches a w p l then { a with quantity := q } else a) :: setQty t w p l q := by
  simp [setQty]

theorem mem_setQty {inv : List InvRow} {w p l : Nat} {q : Int} {r : InvRow}
    (h : r ∈ setQty inv w p l q) : r ∈ inv ∨ r.quantity = q := by
  rcases List.mem_map.mp h with ⟨a, ha, hfa⟩
  by_cases hk : rowKeyMatches a w p l
  · right
    simp [hk] at hfa
    rw [← hfa]
  · left
    simp [hk] at hfa
    rwa [← hfa]

theorem findRow_setQty_self {inv : List InvRow} {w p l : Nat} {r : InvRow} (q : Int)
    (h : findRow inv w p l = some r) :
    findRow (setQty inv w p l q) w p l = some { r with quantity := q } := by
  induction inv with
  | nil => simp [findRow_nil] at h
  | cons a t ih =>
    by_cases ha : rowKeyMatches a w p l
    · rw [findRow_cons_pos t ha] at h
      cases h
      rw [setQty_cons, if_pos ha]
      exact findRow_cons_pos _ (by rw [rowKeyMatches_quantity]; exact ha)
    · rw [findRow_cons_neg t (Bool.eq_false_iff.mpr ha)] at h
      rw [setQty_cons, if_neg ha, findRow_cons_neg _ (Bool.eq_false_iff.mpr ha)]
      exact ih h

theorem findRow_setQty_of_ne {inv : List InvRow} {w p l w2 p2 l2 : Nat} (q : Int)
    (h : ¬(w = w2 ∧ p = p2 ∧ l = l2)) :
    findRow (setQty inv w p l q) w2 p2 l2 = findRow inv w2 p2 l2 := by
  induction inv with
  | nil => rfl
  | cons a t ih =>
    by_cases h1 : rowKeyMatches a w p l
    · have h2 : rowKeyMatches a w2 p2 l2 = false := by
        rcases rowKeyMatches_eq_true.mp h1 with ⟨e1, e2, e3⟩
        by_contra hcon
        have hc2 : rowKeyMatches a w2 p2 l2 = true := by
          revert hcon
          cases rowKeyMatches a w2 p2 l2 <;> simp
        rcases rowKeyMatches_eq_true.mp hc2 with ⟨f1, f2, f3⟩
        exact h ⟨e1.symm.trans f1, e2.symm.trans f2, e3.symm.trans f3⟩
      rw [setQty_cons, if_pos h1,
          findRow_cons_neg _ (by rw [rowKeyMatches_quantity]; exact h2),
          findRow_cons_neg _ h2]
      exact ih
    · by_cases h2 : rowKeyMatches a w2 p2 l2
      · rw [setQty_cons, if_neg h1, findRow_cons_pos _ h2, findRow_cons_pos _ h2]
      · rw [setQty_cons, if_neg h1,
            findRow_cons_neg _ (Bool.eq_false_iff.mpr h2),
            findRow_cons_neg _ (Bool.eq_false_iff.mpr h2)]
        exact ih

theorem findRow_cons_self (inv : List InvRow) (w p l : Nat) (q : Int) :
    findRow ((⟨w, p, l, q⟩ : InvRow) :: inv) w p l = some ⟨w, p, l, q⟩ :=
  findRow_cons_pos _ (by simp [rowKeyMatches])

theorem findRow_cons_of_ne (inv : List InvRow) {w p l w2 p2 l2 : Nat} (q : Int)
    (h : ¬(w = w2 ∧ p = p2 ∧ l = l2)) :
    findRow ((⟨w, p, l, q⟩ : InvRow) :: inv) w2 p2 l2 = findRow inv w2 p2 l2 := by
  apply findRow_cons_neg
  by_contra hcon
  have hc2 : rowKeyMatches (⟨w, p, l, q⟩ : InvRow) w2 p2 l2 = true := by
    revert hcon
    cases rowKeyMatches (⟨w, p, l, q⟩ : InvRow) w2 p2 l2 <;> simp
  rcases rowKeyMatches_eq_true.mp hc2 with ⟨f1, f2, f3⟩
  exact h ⟨f1, f2, f3⟩

theorem qtyAt_setQty_self {inv : List InvRow} {w p l : Nat} {r : InvRow} (q : Int)
    (h : findRow inv w p l = some r) :
    qtyAt (setQty inv w p l q) w p l = q := by
  rw [qtyAt, findRow_setQty_self q h]

theorem nonneg_setQty {inv : List InvRow} (hnn : ∀ r ∈ inv, 0 ≤ r.quantity)
    {q : Int} (hq : 0 ≤ q) (w p l : Nat) :
    ∀ r ∈ setQty inv w p l q, 0 ≤ r.quantity := by
  intro r hr
  rcases mem_setQty hr with hm | he
  · exact hnn r hm
  · rw [he]
    exact hq

theorem addStock_nonneg {db db2 : DB} {w p l : Nat} {qty : Int} {user : Nat}
    {ref : Option Nat} {logOk : Bool} {n : Int}
    (hnn : NonNeg db) (h : addStock db w p l qty user ref logOk = .ok (db2, n)) :
    NonNeg db2 := by
  unfold addStock at h
  split at h
  · exact absurd h (by simp)
  · rename_i hq
    have hq0 : (0 : Int) < qty := lt_of_not_le hq
    split at h
    · rename_i existing hfind
      have hex : 0 ≤ existing.quantity := hnn existing (findRow_some_mem hfind)
      split at h <;>
      · simp only [Except.ok.injEq, Prod.mk.injEq] at h
        intro r hr
        rw [← h.1] at hr
        exact nonneg_setQty hnn (by omega) w p l r hr
    · rename_i hfind
      split at h <;>
      · simp only [Except.ok.injEq, Prod.mk.injEq] at h
        intro r hr
        rw [← h.1] at hr
        rcases List.mem_cons.mp hr with he | hm
        · rw [he]
          exact le_of_lt hq0
        · exact hnn r hm

theorem move_stock_nonneg {db db2 : DB} {w p from_ to_ : Nat} {qty : Int} {user : Nat}
    (hnn : NonNeg db) (h : move_stock db w p from_ to_ qty user = .ok db2) :
    NonNeg db2 := by
  unfold move_stock at h
  split at h
  · exact absurd h (by simp)
  · rename_i hq
    have hq0 : (0 : Int) < qty := lt_of_not_le hq
    split at h
    · exact absurd h (by simp)
    · rename_i src hfind
      split at h
      · exact absurd h (by simp)
      · rename_i hins
        have hnn1 : ∀ r ∈ setQty db.inventory w p from_ (src.quantity - qty), 0 ≤ r.quantity :=
          nonneg_setQty hnn (by omega) w p from_
        split at h
        · rename_i dst hdst
          simp only [Except.ok.injEq] at h
          have hd : 0 ≤ dst.quantity := hnn1 dst (findRow_some_mem hdst)
          intro r hr
          rw [← h] at hr
          exact nonneg_setQty hnn1 (by omega) w p to_ r hr
        · rename_i hdst
          simp only [Except.ok.injEq] at h
          intro r hr
          rw [← h] at hr
          rcases List.mem_cons.mp hr with he | hm
          · rw [he]
            exact le_of_lt hq0
          · exact hnn1 r hm

theorem adjust_stock_nonneg {db db2 : DB} {w p l : Nat} {delta : Int} {user : Nat}
    {reason : String} {n : Int}
    (hnn : NonNeg db) (h : adjust_stock db w p l delta user reason = .ok (db2, n)) :
    NonNeg db2 := by
  unfold adjust_stock at h
  split at h
  · rename_i cur hfind
    split at h
    · exact absurd h (by simp)
    · rename_i hneg
      simp only [Except.ok.injEq, Prod.mk.injEq] at h
      intro r hr
      rw [← h.1] at hr
      exact nonneg_setQty hnn (by omega) w p l r hr
  · rename_i hfind
    split at h
    · exact absurd h (by simp)
    · rename_i hneg
      split at h
      · exact absurd h (by simp)
      · rename_i hz
        simp only [Except.ok.injEq, Prod.mk.injEq] at h
        intro r hr
        rw [← h.1] at hr
        rcases List.mem_cons.mp hr with he | hm
        · rw [he]
          simp only
          omega
        · exact hnn r hm

theorem complete_pick_nonneg {db db2 : DB} {lineId userId now : Nat} {n : Int}
    (hnn : NonNeg db) (h : complete_pick db lineId userId now = .ok (db2, n)) :
    NonNeg db2 := by
  unfold complete_pick at h
  split at h
  · exact absurd h (by simp)
  · rename_i line s hline
    split at h
    · exact absurd h (by simp)
    · rename_i inv hfind
      split at h
      · exact absurd h (by simp)
      · rename_i hneg
        simp only [Except.ok.injEq, Prod.mk.injEq] at h
        intro r hr
        rw [← h.1] at hr
        exact nonneg_setQty hnn (by omega) _ _ _ r hr

theorem applyOp_nonneg {db : DB} (op : Op) (hnn : NonNeg db) : NonNeg (applyOp db op) := by
  cases op with
  | receive w p l qty user ref logOk =>
    simp only [applyOp]
    cases h : addStock db w p l qty user ref logOk with
    | ok pair =>
      obtain ⟨db2, n⟩ := pair
      exact addStock_nonneg hnn h
    | error e => exact hnn
  | move w p from_ to_ qty user =>
    simp only [applyOp]
    cases h : move_stock db w p from_ to_ qty user with
    | ok db2 => exact move_stock_nonneg hnn h
    | error e => exact hnn
  | adjust w p l delta user reason =>
    simp only [applyOp]
    cases h : adjust_stock db w p l delta user reason with
    | ok pair =>
      obtain ⟨db2, n⟩ := pair
      exact adjust_stock_nonneg hnn h
    | error e => exact hnn
  | completePick lineId userId now =>
    simp only [applyOp]
    cases h : complete_pick db lineId userId now with
    | ok pair =>
      obtain ⟨db2, n⟩ := pair
      exact complete_pick_nonneg hnn h
    | error e => exact hnn

/-- C1. Non-negativity invariant: starting from a ledger whose rows all
have quantity ≥ 0, every sequence of Receive (`addStock`),
Move (`move_stock`), Adjust (`adjust_stock`) and CompletePick
(`complete_pick`) calls — each observed as its new state on success and
the unchanged state on failure — leaves every ledger row's quantity ≥ 0
after each operation (every prefix of the sequence is itself a sequence
of such calls). -/
theorem claim1_non_negativity (db : DB) (ops : List Op) (hnn : NonNeg db) :
    NonNeg (ops.foldl applyOp db) := by
  induction ops generalizing db with
  | nil => exact hnn
  | cons op rest ih =>
    rw [List.foldl_cons]
    exact ih (applyOp db op) (applyOp_nonneg op hnn)

/-- Witness for C1 at a concrete ledger and a concrete call sequence
(receive, move, a negative adjust and a failing pick). -/
theorem claim1_non_negativity_witness :
    NonNeg (opsC1.foldl applyOp dbOneRow) :=
  claim1_non_negativity dbOneRow opsC1 (by unfold NonNeg; decide)

/-- C3. Conservation under Move: a successful `move_stock` of quantity q
of product p from location a to a different location b decreases the
source quantity by exactly q, increases the destination quantity by
exactly q, creates a destination row holding q when none existed, and
leaves the total quantity of p across a and b unchanged. -/
theorem claim3_move_conservation (db db2 : DB) (w p a b : Nat) (q : Int) (u : Nat)
    (hab : a ≠ b) (h : move_stock db w p a b q u = .ok db2) :
    qtyAt db2.inventory w p a = qtyAt db.inventory w p a - q ∧
    qtyAt db2.inventory w p b = qtyAt db.inventory w p b + q ∧
    (findRow db.inventory w p b = none →
      findRow db2.inventory w p b = some ⟨w, p, b, q⟩) ∧
    qtyAt db2.inventory w p a + qtyAt db2.inventory w p b =
      qtyAt db.inventory w p a + qtyAt db.inventory w p b := by
  have hne_ab : ¬(w = w ∧ p = p ∧ a = b) := fun hc => hab hc.2.2
  have hne_ba : ¬(w = w ∧ p = p ∧ b = a) := fun hc => hab hc.2.2.symm
  unfold move_stock at h
  split at h
  · exact absurd h (by simp)
  · split at h
    · exact absurd h (by simp)
    · rename_i src hsrc
      split at h
      · exact absurd h (by simp)
      · rename_i hins
        have hqa : qtyAt db.inventory w p a = src.quantity := by
          rw [qtyAt, hsrc]
        split at h
        · rename_i dst hdst
          simp only [Except.ok.injEq] at h
          have hdb : findRow db.inventory w p b = some dst := by
            rw [← findRow_setQty_of_ne (src.quantity - q) hne_ab]
            exact hdst
          have hqb : qtyAt db.inventory w p b = dst.quantity := by
            rw [qtyAt, hdb]
          have h2a : qtyAt db2.inventory w p a = src.quantity - q := by
            rw [← h]
            show qtyAt (setQty _ w p b (dst.quantity + q)) w p a = _
            rw [qtyAt, findRow_setQty_of_ne (dst.quantity + q) hne_ba,
                findRow_setQty_self (src.quantity - q) hsrc]
          have h2b : qtyAt db2.inventory w p b = dst.quantity + q := by
            rw [← h]
            exact qtyAt_setQty_self (dst.quantity + q) hdst
          refine ⟨by rw [h2a, hqa], by rw [h2b, hqb], ?_, by rw [h2a, h2b, hqa, hqb]; ring⟩
          intro hnone
          rw [hnone] at hdb
          exact absurd hdb (by simp)
        · rename_i hdst
          simp only [Except.ok.injEq] at h
          have hdb : findRow db.inventory w p b = none := by
            rw [← findRow_setQty_of_ne (src.quantity - q) hne_ab]
            exact hdst
          have hqb : qtyAt db.inventory w p b = 0 := by
            rw [qtyAt, hdb]
          have h2b : findRow db2.inventory w p b = some ⟨w, p, b, q⟩ := by
            rw [← h]
            exact findRow_cons_self _ w p b q
          have h2a : qtyAt db2.inventory w p a = src.quantity - q := by
            rw [← h]
            show qtyAt ((⟨w, p, b, q⟩ : InvRow) :: setQty _ w p a (src.quantity - q)) w p a = _
            rw [qtyAt, findRow_cons_of_ne _ q hne_ba,
                findRow_setQty_self (src.quantity - q) hsrc]
          refine ⟨by rw [h2a, hqa], ?_, fun _ => h2b, ?_⟩
          · rw [qtyAt, h2b, hqb]
            ring
          · rw [h2a, qtyAt, h2b, hqa, hqb]
            ring

/-- Witness for C3: moving 3 units of product 1 from location 1 to
location 2 in the one-row ledger. -/
theorem claim3_move_conservation_witness :
    qtyAt (runMove dbOneRow 1 1 1 2 3 7).inventory 1 1 1 =
        qtyAt dbOneRow.inventory 1 1 1 - 3 ∧
    qtyAt (runMove dbOneRow 1 1 1 2 3 7).inventory 1 1 2 =
        qtyAt dbOneRow.inventory 1 1 2 + 3 ∧
    (findRow dbOneRow.inventory 1 1 2 = none →
      findRow (runMove dbOneRow 1 1 1 2 3 7).inventory 1 1 2 = some ⟨1, 1, 2, 3⟩) ∧
    qtyAt (runMove dbOneRow 1 1 1 2 3 7).inventory 1 1 1 +
        qtyAt (runMove dbOneRow 1 1 1 2 3 7).inventory 1 1 2 =
      qtyAt dbOneRow.inventory 1 1 1 + qtyAt dbOneRow.inventory 1 1 2 :=
  claim3_move_conservation dbOneRow (runMove dbOneRow 1 1 1 2 3 7) 1 1 1 2 3 7
    (by decide) (by rfl)

theorem find?_id_cons_pos {a : ShipmentLine} (t : List ShipmentLine) {i : Nat}
    (h : (a.id == i) = true) :
    List.find? (fun sl => sl.id == i) (a :: t) = some a := by
  simp [List.find?_cons, h]

theorem find?_id_cons_neg {a : ShipmentLine} (t : List ShipmentLine) {i : Nat}
    (h : (a.id == i) = false) :
    List.find? (fun sl => sl.id == i) (a :: t) = List.find? (fun sl => sl.id == i) t := by
  simp [List.find?_cons, h]

theorem lineById_setLine {lines : List ShipmentLine} {i : Nat}
    (f : ShipmentLine → ShipmentLine) (hf : ∀ sl, (f sl).id = sl.id) :
    List.find? (fun sl => sl.id == i) (setLine lines i f) =
      (List.find? (fun sl => sl.id == i) lines).map f := by
  induction lines with
  | nil => rfl
  | cons a t ih =>
    by_cases ha : (a.id == i) = true
    · have hset : setLine (a :: t) i f = f a :: setLine t i f := by
        unfold setLine
        rw [List.map_cons, if_pos ha]
      rw [hset, find?_id_cons_pos t ha,
          find?_id_cons_pos _ (by rw [hf a]; exact ha)]
      rfl
    · have hb : (a.id == i) = false := by
        revert ha
        cases a.id == i <;> simp
      have hset : setLine (a :: t) i f = a :: setLine t i f := by
        unfold setLine
        rw [List.map_cons, if_neg (by rw [hb]; exact Bool.false_ne_true)]
      rw [hset, find?_id_cons_neg t hb, find?_id_cons_neg _ hb]
      exact ih

theorem find?_id_isSome {lines : List ShipmentLine} {i : Nat} {sl : ShipmentLine}
    (hmem : sl ∈ lines) (hid : (sl.id == i) = true) :
    ∃ sl0, List.find? (fun x => x.id == i) lines = some sl0 := by
  induction lines with
  | nil => cases hmem
  | cons a t ih =>
    by_cases ha : (a.id == i) = true
    · exact ⟨a, find?_id_cons_pos t ha⟩
    · have hb : (a.id == i) = false := by
        revert ha
        cases a.id == i <;> simp
      rw [find?_id_cons_neg t hb]
      rcases List.mem_cons.mp hmem with he | hm
      · rw [he] at hid
        rw [hid] at hb
        cases hb
      · exact ih hm

/-- C2. Shortage atomicity: when `complete_pick_with_shortage` succeeds
with `actualQty` strictly below the line's expected quantity, the one
resulting state carries the ledger row at the line's location decremented
by exactly `actualQty`, exactly one new problem ticket — open, with
`shortage_quantity = expected - actualQty` — and the line set to
`short_picked` with `quantity = actualQty`; and when the call fails the
observed state is completely unchanged, so neither the ticket nor the
decrement ever exists without the other. -/
theorem claim2_shortage_atomicity (db : DB) (lineId userId : Nat) (aq : Int)
    (reason : Option String) (now : Nat) (line : ShipmentLine) (s : Shipment)
    (hfind : findPickLine db lineId userId = some (line, s))
    (hshort : aq < line.quantity) :
    (∀ db2 res, complete_pick_with_shortage db lineId userId aq reason now = .ok (db2, res) →
      db2.problem_tickets = shortPickTicket line s aq reason userId :: db.problem_tickets ∧
      (shortPickTicket line s aq reason userId).status = "open" ∧
      (shortPickTicket line s aq reason userId).shortage_quantity = line.quantity - aq ∧
      qtyAt db2.inventory s.warehouse_id line.product_id line.location_id =
        qtyAt db.inventory s.warehouse_id line.product_id line.location_id - aq ∧
      (∃ sl2, lineById db2 lineId = some sl2 ∧ sl2.status = .short_picked ∧
        sl2.quantity = aq ∧ sl2.picked_at = some now) ∧
      res.shortage = line.quantity - aq) ∧
    (∀ e, complete_pick_with_shortage db lineId userId aq reason now = .error e →
      runShortPick db lineId userId aq reason now = db) := by
  constructor
  · intro db2 res hsucc
    have hf2 := hfind
    unfold findPickLine at hf2
    split at hf2
    · exact absurd hf2 (by simp)
    · rename_i sl0 hstrong
      split at hf2
      · exact absurd hf2 (by simp)
      · rename_i s0 hship
        simp only [Option.some.injEq, Prod.mk.injEq] at hf2
        obtain ⟨hsl0, hs0⟩ := hf2
        rw [hsl0] at hstrong
        have hid : (line.id == lineId) = true := by
          have := List.find?_some hstrong
          simp only [Bool.and_eq_true] at this
          exact this.1.1
        have hmem : line ∈ db.shipment_lines := List.mem_of_find?_eq_some hstrong
        unfold complete_pick_with_shortage at hsucc
        rw [hfind] at hsucc
        simp only at hsucc
        split at hsucc
        · exact absurd hsucc (by simp)
        · split at hsucc
          · exact absurd hsucc (by simp)
          · split at hsucc
            · exact absurd hsucc (by simp)
            · rename_i inv hinv
              split at hsucc
              · exact absurd hsucc (by simp)
              · rename_i hstock
                split at hsucc
                · rename_i hpos
                  simp only [Except.ok.injEq, Prod.mk.injEq] at hsucc
                  obtain ⟨hdb, hres⟩ := hsucc
                  refine ⟨by rw [← hdb], rfl, rfl, ?_, ?_, by rw [← hres]⟩
                  · rw [← hdb]
                    show qtyAt (setQty _ _ _ _ _) _ _ _ = _
                    rw [qtyAt_setQty_self _ hinv, qtyAt, hinv]
                  · obtain ⟨sl1, hsl1⟩ := find?_id_isSome hmem hid
                    refine ⟨shortLineUpdate aq (line.quantity - aq) now sl1, ?_, rfl, rfl, rfl⟩
                    rw [← hdb]
                    show List.find? _ (setLine _ _ _) = _
                    rw [lineById_setLine (shortLineUpdate aq (line.quantity - aq) now)
                          (fun sl => rfl), hsl1]
                    rfl
                · rename_i hpos
                  exact absurd hshort (by omega)
  · intro e herr
    unfold runShortPick
    rw [herr]

/-- Witness for C2: short-picking 3 of the expected 5 units in the
concrete pick state `dbPick` (8 units on hand). -/
theorem claim2_shortage_atomicity_witness :
    (runShortPick dbPick 10 7 3 none 99).problem_tickets =
        shortPickTicket exLine exShip 3 none 7 :: dbPick.problem_tickets ∧
    (shortPickTicket exLine exShip 3 none 7).status = "open" ∧
    (shortPickTicket exLine exShip 3 none 7).shortage_quantity = exLine.quantity - 3 ∧
    qtyAt (runShortPick dbPick 10 7 3 none 99).inventory exShip.warehouse_id
        exLine.product_id exLine.location_id =
      qtyAt dbPick.inventory exShip.warehouse_id exLine.product_id exLine.location_id - 3 ∧
    (∃ sl2, lineById (runShortPick dbPick 10 7 3 none 99) 10 = some sl2 ∧
      sl2.status = .short_picked ∧ sl2.quantity = 3 ∧ sl2.picked_at = some 99) ∧
    (⟨3, 2, 5⟩ : ShortPickResult).shortage = exLine.quantity - 3 :=
  (claim2_shortage_atomicity dbPick 10 7 3 none 99 exLine exShip rfl (by decide)).1
    (runShortPick dbPick 10 7 3 none 99) ⟨3, 2, 5⟩ (by rfl)

/-- C6 (amended). Adjust behavior of `adjust_stock`: on a missing row,
`delta < 0` fails with NegativeResult (the negative-result check runs
first), `delta = 0` fails with CannotCreateNegative, and `delta > 0`
creates a row holding exactly `delta`; on an existing row the call fails
with NegativeResult exactly when `existing.quantity + delta < 0` and
otherwise writes `existing.quantity + delta`. -/
theorem claim6_adjust_behavior (db : DB) (w p l : Nat) (delta : Int) (u : Nat)
    (reason : String) :
    (findRow db.inventory w p l = none →
      (delta < 0 → adjust_stock db w p l delta u reason = .error .NegativeResult) ∧
      (delta = 0 → adjust_stock db w p l delta u reason = .error .CannotCreateNegative) ∧
      (0 < delta → adjust_stock db w p l delta u reason =
        .ok ({ db with inventory := (⟨w, p, l, delta⟩ : InvRow) :: db.inventory,
                       transactions := adjustTx w p l delta u reason :: db.transactions },
             delta))) ∧
    (∀ cur, findRow db.inventory w p l = some cur →
      (cur.quantity + delta < 0 →
        adjust_stock db w p l delta u reason = .error .NegativeResult) ∧
      (0 ≤ cur.quantity + delta → adjust_stock db w p l delta u reason =
        .ok ({ db with inventory := setQty db.inventory w p l (cur.quantity + delta),
                       transactions := adjustTx w p l delta u reason :: db.transactions },
             cur.quantity + delta))) := by
  constructor
  · intro hf
    refine ⟨fun hd => ?_, fun hd => ?_, fun hd => ?_⟩
    · unfold adjust_stock
      simp only [hf]
      rw [if_pos hd]
    · unfold adjust_stock
      simp only [hf]
      rw [if_neg (by omega), if_pos (by omega)]
    · unfold adjust_stock
      simp only [hf]
      rw [if_neg (by omega), if_neg (by omega)]
  · intro cur hf
    refine ⟨fun hd => ?_, fun hd => ?_⟩
    · unfold adjust_stock
      simp only [hf]
      rw [if_pos hd]
    · unfold adjust_stock
      simp only [hf]
      rw [if_neg (by omega)]

/-- Counterexample to C6 as stated: `adjust_stock` with `delta = -5` on a
nonexistent row fails with the NegativeResult error (the negative-result
check fires before the row-creation check), not with CannotCreateNegative
as the claim requires. -/
theorem claim6_counterexample :
    adjust_stock dbEmpty 1 1 1 (-5) 9 "cycle count" = .error .NegativeResult ∧
    OpError.NegativeResult ≠ OpError.CannotCreateNegative :=
  ⟨rfl, by decide⟩

/-- Witness for C6 (amended): adjusting a nonexistent row by +5 creates
it with quantity 5, and adjusting by 0 fails with CannotCreateNegative. -/
theorem claim6_adjust_behavior_witness :
    adjust_stock dbEmpty 1 1 1 5 9 "found stock" =
      .ok ({ dbEmpty with inventory := [⟨1, 1, 1, 5⟩],
                          transactions := [adjustTx 1 1 1 5 9 "found stock"] }, 5) ∧
    adjust_stock dbEmpty 1 1 1 0 9 "recount" = .error .CannotCreateNegative :=
  ⟨((claim6_adjust_behavior dbEmpty 1 1 1 5 9 "found stock").1 rfl).2.2 (by decide),
   ((claim6_adjust_behavior dbEmpty 1 1 1 0 9 "recount").1 rfl).2.1 rfl⟩

/-- C7 (amended). Behavior of `complete_pick`: NotAssigned when the
in-progress-and-assigned line lookup fails; InventoryNotFound when the
matching ledger row is absent (a third error kind, distinct from
InsufficientStock); InsufficientStock when the row holds less than
`line.quantity`; otherwise it succeeds, decrementing the ledger row by
`line.quantity` and marking the line picked with `picked_at` set. -/
theorem claim7_complete_pick_behavior (db : DB) (lineId userId now : Nat) :
    (findPickLine db lineId userId = none →
      complete_pick db lineId userId now = .error .NotAssigned) ∧
    (∀ line s, findPickLine db lineId userId = some (line, s) →
      (findRow db.inventory s.warehouse_id line.product_id line.location_id = none →
        complete_pick db lineId userId now = .error .InventoryNotFound) ∧
      (∀ inv, findRow db.inventory s.warehouse_id line.product_id line.location_id = some inv →
        (inv.quantity < line.quantity →
          complete_pick db lineId userId now = .error .InsufficientStock) ∧
        (line.quantity ≤ inv.quantity →
          complete_pick db lineId userId now =
            .ok ({ db with
                    inventory := setQty db.inventory s.warehouse_id line.product_id
                      line.location_id (inv.quantity - line.quantity),
                    shipment_lines := setLine db.shipment_lines lineId (pickedLineUpdate now),
                    transactions := pickTx s.warehouse_id userId line.product_id
                      line.location_id line.quantity line.shipment_id none ::
                      db.transactions },
                 inv.quantity - line.quantity)))) := by
  constructor
  · intro hf
    unfold complete_pick
    simp only [hf]
  · intro line s hf
    constructor
    · intro hrow
      unfold complete_pick
      simp only [hf, hrow]
    · intro inv hrow
      refine ⟨fun hlt => ?_, fun hge => ?_⟩
      · unfold complete_pick
        simp only [hf, hrow]
        rw [if_pos (by omega)]
      · unfold complete_pick
        simp only [hf, hrow]
        rw [if_neg (by omega)]

/-- Counterexample to C7 as stated: with a valid assigned in-progress line
but no ledger row at its location, `complete_pick` fails with the distinct
InventoryNotFound error, not with InsufficientStock (nor NotAssigned) as
the claim requires for every non-ownership failure. -/
theorem claim7_counterexample :
    complete_pick dbPickNoInv 10 7 99 = .error .InventoryNotFound ∧
    OpError.InventoryNotFound ≠ OpError.InsufficientStock ∧
    OpError.InventoryNotFound ≠ OpError.NotAssigned :=
  ⟨rfl, by decide, by decide⟩

/-- Witness for C7 (amended): the successful pick in `dbPick` decrements
the 8-unit row by the line quantity 5. -/
theorem claim7_complete_pick_behavior_witness :
    complete_pick dbPick 10 7 99 = .ok (dbPicked, 3) := by
  have h := (((claim7_complete_pick_behavior dbPick 10 7 99).2 exLine exShip rfl).2
    ⟨1, 1, 1, 8⟩ rfl).2 (by decide)
  rw [h]
  rfl

/-- C8 (amended). Behavior of `pullPutawayTask`: it succeeds exactly when
a task with the given id is still pending; on success it sets
`status := in_progress` and `assigned_to := userId` and touches nothing
else — in particular `started_at` keeps its previous value (the source
never writes it); on a task that is already pulled or missing it fails
with AlreadyAssignedOrNotFound and, the call being pure until the
conditional update matches, leaves every task unchanged. -/
theorem claim8_pull_behavior (db : DB) (taskId userId : Nat) :
    (findPendingTask db taskId = none →
      pullPutawayTask db taskId userId = .error .AlreadyAssignedOrNotFound) ∧
    (∀ t, findPendingTask db taskId = some t →
      pullPutawayTask db taskId userId =
        .ok ({ db with putaway_tasks := db.putaway_tasks.map (pullUpdate taskId userId) },
             { t with status := .in_progress, assigned_to := some userId }) ∧
      ({ t with status := TaskStatus.in_progress,
                assigned_to := some userId } : PutawayTask).started_at = t.started_at) := by
  constructor
  · intro hf
    unfold pullPutawayTask
    simp only [hf]
  · intro t hf
    refine ⟨?_, rfl⟩
    unfold pullPutawayTask
    simp only [hf]

/-- Counterexample to C8 as stated: pulling the pending task 5 succeeds
but the returned task still has `started_at = none` — the source update
sets only `status` and `assigned_to`, never `started_at = now`. -/
theorem claim8_counterexample :
    pullPutawayTask dbTask 5 7 = .ok (dbTaskPulled, exTaskPulled) ∧
    exTaskPulled.started_at = none ∧ exTaskPulled.status = .in_progress ∧
    exTaskPulled.assigned_to = some 7 :=
  ⟨rfl, rfl, rfl, rfl⟩

/-- Witness for C8 (amended): pulling pending task 5 as user 7, and a
failing pull on the empty database. -/
theorem claim8_pull_behavior_witness :
    (pullPutawayTask dbTask 5 7 =
      .ok ({ dbTask with putaway_tasks := dbTask.putaway_tasks.map (pullUpdate 5 7) },
           { exTask with status := .in_progress, assigned_to := some 7 }) ∧
     ({ exTask with status := TaskStatus.in_progress,
                    assigned_to := some 7 } : PutawayTask).started_at = exTask.started_at) ∧
    pullPutawayTask dbEmpty 5 7 = .error .AlreadyAssignedOrNotFound :=
  ⟨(claim8_pull_behavior dbTask 5 7).2 exTask rfl,
   (claim8_pull_behavior dbEmpty 5 7).1 rfl⟩

/-- C5 (amended). Log completeness: every successful `move_stock`,
`adjust_stock`, `complete_pick` and `complete_pick_with_shortage` call
appends exactly one movement-log entry with the matching type, quantity
and actor to the previous log, and a failed call (the operations being
all-or-nothing) appends none; `addStock` appends its one matching
`receive` entry only when the log insert succeeds (`logOk = true`) — when
the log insert fails the stock mutation still commits with no entry. -/
theorem claim5_log_completeness (db : DB) :
    (∀ w p a b q u db2, move_stock db w p a b q u = .ok db2 →
      db2.transactions = moveTx w p a b q u :: db.transactions ∧
      (moveTx w p a b q u).transaction_type = .move ∧
      (moveTx w p a b q u).quantity = q ∧ (moveTx w p a b q u).user_id = u) ∧
    (∀ w p l d u r db2 n, adjust_stock db w p l d u r = .ok (db2, n) →
      db2.transactions = adjustTx w p l d u r :: db.transactions ∧
      (adjustTx w p l d u r).transaction_type = .adjust ∧
      (adjustTx w p l d u r).quantity = d ∧ (adjustTx w p l d u r).user_id = u) ∧
    (∀ lineId userId now db2 n, complete_pick db lineId userId now = .ok (db2, n) →
      ∃ line s, findPickLine db lineId userId = some (line, s) ∧
        db2.transactions = pickTx s.warehouse_id userId line.product_id line.location_id
          line.quantity line.shipment_id none :: db.transactions) ∧
    (∀ lineId userId aq r now db2 res,
      complete_pick_with_shortage db lineId userId aq r now = .ok (db2, res) →
      ∃ line s tx, findPickLine db lineId userId = some (line, s) ∧
        db2.transactions = tx :: db.transactions ∧
        tx.transaction_type = .pick ∧ tx.quantity = aq ∧ tx.user_id = userId) ∧
    (∀ w p l q u ref db2 n, addStock db w p l q u ref true = .ok (db2, n) →
      db2.transactions = receiveTx w p l q u ref :: db.transactions ∧
      (receiveTx w p l q u ref).transaction_type = .receive ∧
      (receiveTx w p l q u ref).quantity = q ∧ (receiveTx w p l q u ref).user_id = u) ∧
    (∀ w p l q u ref db2 n, addStock db w p l q u ref false = .ok (db2, n) →
      db2.transactions = db.transactions) := by
  refine ⟨?_, ?_, ?_, ?_, ?_, ?_⟩
  · intro w p a b q u db2 h
    unfold move_stock at h
    split at h
    · exact absurd h (by simp)
    · split at h
      · exact absurd h (by simp)
      · split at h
        · exact absurd h (by simp)
        · split at h <;>
          · simp only [Except.ok.injEq] at h
            exact ⟨by rw [← h], rfl, rfl, rfl⟩
  · intro w p l d u r db2 n h
    unfold adjust_stock at h
    split at h
    · split at h
      · exact absurd h (by simp)
      · simp only [Except.ok.injEq, Prod.mk.injEq] at h
        exact ⟨by rw [← h.1], rfl, rfl, rfl⟩
    · split at h
      · exact absurd h (by simp)
      · split at h
        · exact absurd h (by simp)
        · simp only [Except.ok.injEq, Prod.mk.injEq] at h
          exact ⟨by rw [← h.1], rfl, rfl, rfl⟩
  · intro lineId userId now db2 n h
    unfold complete_pick at h
    split at h
    · exact absurd h (by simp)
    · rename_i line s hline
      split at h
      · exact absurd h (by simp)
      · split at h
        · exact absurd h (by simp)
        · simp only [Except.ok.injEq, Prod.mk.injEq] at h
          exact ⟨line, s, hline, by rw [← h.1]⟩
  · intro lineId userId aq r now db2 res h
    unfold complete_pick_with_shortage at h
    split at h
    · exact absurd h (by simp)
    · rename_i line s hline
      split at h
      · exact absurd h (by simp)
      · split at h
        · exact absurd h (by simp)
        · split at h
          · exact absurd h (by simp)
          · split at h
            · exact absurd h (by simp)
            · split at h
              · simp only [Except.ok.injEq, Prod.mk.injEq] at h
                exact ⟨line, s, _, hline, by rw [← h.1], rfl, rfl, rfl⟩
              · simp only [Except.ok.injEq, Prod.mk.injEq] at h
                exact ⟨line, s, _, hline, by rw [← h.1], rfl, rfl, rfl⟩
  · intro w p l q u ref db2 n h
    unfold addStock at h
    split at h
    · exact absurd h (by simp)
    · split at h <;>
      · split at h
        · simp only [Except.ok.injEq, Prod.mk.injEq] at h
          exact ⟨by rw [← h.1], rfl, rfl, rfl⟩
        · simp at *
  · intro w p l q u ref db2 n h
    unfold addStock at h
    split at h
    · exact absurd h (by simp)
    · split at h <;>
      · split at h
        · simp at *
        · simp only [Except.ok.injEq, Prod.mk.injEq] at h
          rw [← h.1]

/-- Counterexample to C5 as stated: a successful `addStock` call whose
log insert fails (a case the source explicitly tolerates — it warns and
returns success) mutates the ledger yet leaves zero movement-log
entries. -/
theorem claim5_counterexample :
    addStock dbOneRow 1 1 1 4 9 none false = .ok (dbAdded, 9) ∧
    dbAdded.transactions = dbOneRow.transactions ∧
    dbOneRow.transactions = [] ∧ dbAdded.inventory = [⟨1, 1, 1, 9⟩] :=
  ⟨rfl, rfl, rfl, rfl⟩

/-- Witness for C5 (amended) at a concrete successful move: exactly one
`move` entry with quantity 3 by user 7 is prepended. -/
theorem claim5_log_completeness_witness :
    (runMove dbOneRow 1 1 1 2 3 7).transactions =
        moveTx 1 1 1 2 3 7 :: dbOneRow.transactions ∧
    (moveTx 1 1 1 2 3 7).transaction_type = .move ∧
    (moveTx 1 1 1 2 3 7).quantity = 3 ∧ (moveTx 1 1 1 2 3 7).user_id = 7 :=
  (claim5_log_completeness dbOneRow).1 1 1 1 2 3 7
    (runMove dbOneRow 1 1 1 2 3 7) (by rfl)

/-- C10. When `createWave` is called with a non-empty shipment list whose
commitment pre-check reports it cannot be fulfilled, the call returns the
shortage error and leaves every shipment untouched, yet the wave row
inserted at the start of the call (status `pending`, `total_shipments` =
number of proposed shipments) remains persisted in the resulting state. -/
theorem claim10_wave_persists (db : DB) (w : Nat) (ids : List Nat) (wid : Nat)
    (wn : String) (hne : ids ≠ [])
    (hcf : (preCheckInventoryCommitment db ids).can_fulfill = false) :
    (createWave db w ids wid wn).1.waves =
      (⟨wid, w, wn, "pending", ids.length⟩ : Wave) :: db.waves ∧
    (createWave db w ids wid wn).1.shipments = db.shipments ∧
    (createWave db w ids wid wn).2 =
      .error "Inventory Shortage: Cannot release wave." := by
  have hie : ids.isEmpty = false := by
    cases ids with
    | nil => exact absurd rfl hne
    | cons a t => rfl
  have hpc : (preCheckInventoryCommitment
      { db with waves := (⟨wid, w, wn, "pending", ids.length⟩ : Wave) :: db.waves }
      ids).can_fulfill = false := hcf
  unfold createWave
  rw [hie]
  rw [if_neg Bool.false_ne_true, hpc, if_neg Bool.false_ne_true]
  exact ⟨rfl, rfl, rfl⟩

/-- Witness for C10: the commitment-gate scenario `dbGate` (two shipments
demanding 10 each, 15 on hand) rejects the wave but keeps its row. -/
theorem claim10_wave_persists_witness :
    (createWave dbGate 1 [100, 101] 500 "W1").1.waves =
      (⟨500, 1, "W1", "pending", 2⟩ : Wave) :: dbGate.waves ∧
    (createWave dbGate 1 [100, 101] 500 "W1").1.shipments = dbGate.shipments ∧
    (createWave dbGate 1 [100, 101] 500 "W1").2 =
      .error "Inventory Shortage: Cannot release wave." :=
  claim10_wave_persists dbGate 1 [100, 101] 500 "W1" (by decide) (by rfl)

/-- C9. The optimized pick queue is a permutation of exactly the joined
pending pick rows of the warehouse (and wave filter), it is sorted by the
ORDER BY key — zone, aisle, section ascending, then shipment priority
descending, then shipment creation time ascending — and on the concrete
scenario with lines (zone A, aisle 1, priority 5), (zone A, aisle 2,
priority 1), (zone B, aisle 1, priority 9) it returns them in the order
A1(5), A2(1), B1(9). -/
theorem claim9_queue_ordering (db : DB) (w : Nat) (waveId : Option Nat) :
    (get_optimized_pick_queue db w waveId).Perm (pickQueueRows db w waveId) ∧
    List.Pairwise queueLE (get_optimized_pick_queue db w waveId) ∧
    get_optimized_pick_queue dbQueue 1 none = [exRowA1, exRowA2, exRowB1] :=
  ⟨List.perm_insertionSort queueLE (pickQueueRows db w waveId),
   List.sorted_insertionSort queueLE (pickQueueRows db w waveId),
   by decide⟩

/- Lemmas about the per-product requirements accumulator of the
commitment pre-check. -/

theorem reqQty_of_any_false {reqs : List (Nat × Int × String)} {k : Nat}
    (h : reqs.any (fun r => r.1 == k) = false) : reqQty reqs k = 0 := by
  induction reqs with
  | nil => rfl
  | cons a t ih =>
    simp only [List.any_cons, Bool.or_eq_false_iff] at h
    simp only [reqQty]
    rw [if_neg (by rw [h.1]; exact Bool.false_ne_true)]
    exact ih h.2

theorem reqQty_update {reqs : List (Nat × Int × String)} {k : Nat} (q : Int)
    (hany : reqs.any (fun r => r.1 == k) = true) :
    reqQty (reqs.map (fun r => if r.1 == k then (r.1, r.2.1 + q, r.2.2) else r)) k =
      reqQty reqs k + q := by
  induction reqs with
  | nil => simp at hany
  | cons a t ih =>
    by_cases ha : (a.1 == k) = true
    · simp [List.map_cons, reqQty, ha]
    · have hb : (a.1 == k) = false := by
        revert ha
        cases a.1 == k <;> simp
      have hany2 : t.any (fun r => r.1 == k) = true := by
        simp only [List.any_cons, hb, Bool.false_or] at hany
        exact hany
      simp only [List.map_cons, reqQty, hb, Bool.false_eq_true, if_false]
      exact ih hany2

theorem reqQty_append_new {reqs : List (Nat × Int × String)} {k : Nat} (q : Int)
    (sku : String) (hnone : reqs.any (fun r => r.1 == k) = false) :
    reqQty (reqs ++ [(k, q, sku)]) k = q := by
  induction reqs with
  | nil => simp [reqQty]
  | cons a t ih =>
    simp only [List.any_cons, Bool.or_eq_false_iff] at hnone
    simp only [List.cons_append, reqQty]
    rw [if_neg (by rw [hnone.1]; exact Bool.false_ne_true)]
    exact ih hnone.2

theorem reqQty_addRequirement_self (reqs : List (Nat × Int × String)) (k : Nat)
    (q : Int) (sku : String) :
    reqQty (addRequirement reqs k q sku) k = reqQty reqs k + q := by
  unfold addRequirement
  by_cases hany : reqs.any (fun r => r.1 == k) = true
  · rw [if_pos hany]
    exact reqQty_update q hany
  · have hf : reqs.any (fun r => r.1 == k) = false := by
      revert hany
      cases reqs.any (fun r => r.1 == k) <;> simp
    rw [if_neg (by rw [hf]; exact Bool.false_ne_true)]
    rw [reqQty_append_new q sku hf, reqQty_of_any_false hf]
    ring

theorem reqQty_map_ne {reqs : List (Nat × Int × String)} {k pid : Nat} (q : Int)
    (hk : k ≠ pid) :
    reqQty (reqs.map (fun r => if r.1 == k then (r.1, r.2.1 + q, r.2.2) else r)) pid =
      reqQty reqs pid := by
  induction reqs with
  | nil => rfl
  | cons a t ih =>
    by_cases hp : (a.1 == pid) = true
    · have hak : (a.1 == k) = false := by
        have he : a.1 = pid := by simpa using hp
        rw [he]
        simpa using (Ne.symm hk)
      simp only [List.map_cons, reqQty, hak, Bool.false_eq_true, if_false, hp, if_true]
    · have hpf : (a.1 == pid) = false := by
        revert hp
        cases a.1 == pid <;> simp
      simp only [List.map_cons, reqQty]
      have hfst : (if (a.1 == k) = true then (a.1, a.2.1 + q, a.2.2) else a).1 = a.1 := by
        split <;> rfl
      rw [show ((if (a.1 == k) = true then (a.1, a.2.1 + q, a.2.2) else a).1 == pid) = false by
            rw [hfst]; exact hpf]
      simp only [Bool.false_eq_true, if_false, hpf]
      exact ih

theorem reqQty_append_ne {reqs : List (Nat × Int × String)} {k pid : Nat} (q : Int)
    (sku : String) (hk : k ≠ pid) :
    reqQty (reqs ++ [(k, q, sku)]) pid = reqQty reqs pid := by
  induction reqs with
  | nil =>
    simp only [List.nil_append, reqQty]
    rw [if_neg (by simpa using hk)]
  | cons a t ih =>
    simp only [List.cons_append, reqQty]
    by_cases hp : (a.1 == pid) = true
    · rw [if_pos hp, if_pos hp]
    · have hpf : (a.1 == pid) = false := by
        revert hp
        cases a.1 == pid <;> simp
      rw [if_neg (by rw [hpf]; exact Bool.false_ne_true),
          if_neg (by rw [hpf]; exact Bool.false_ne_true)]
      exact ih

theorem reqQty_addRequirement_ne (reqs : List (Nat × Int × String)) {k pid : Nat}
    (q : Int) (sku : String) (hk : k ≠ pid) :
    reqQty (addRequirement reqs k q sku) pid = reqQty reqs pid := by
  unfold addRequirement
  split
  · exact reqQty_map_ne q hk
  · exact reqQty_append_ne q sku hk

theorem reqQty_foldl (g : ShipmentLine → String) (L : List ShipmentLine) :
    ∀ (reqs : List (Nat × Int × String)) (pid : Nat),
      reqQty (L.foldl (fun rs sl => addRequirement rs sl.product_id sl.quantity (g sl)) reqs) pid =
        reqQty reqs pid + linesDemand L pid := by
  induction L with
  | nil =>
    intro reqs pid
    simp [linesDemand]
  | cons sl t ih =>
    intro reqs pid
    rw [List.foldl_cons, ih]
    by_cases hp : (sl.product_id == pid) = true
    · have he : sl.product_id = pid := by simpa using hp
      rw [he, reqQty_addRequirement_self]
      simp only [linesDemand, hp, if_true]
      ring
    · have hne : sl.product_id ≠ pid := by simpa using hp
      have hpf : (sl.product_id == pid) = false := by
        revert hp
        cases sl.product_id == pid <;> simp
      rw [reqQty_addRequirement_ne _ _ _ hne]
      simp only [linesDemand, hpf, Bool.false_eq_true, if_false]
      ring

theorem reqQty_requirementsOf (db : DB) (ids : List Nat) (pid : Nat) :
    reqQty (requirementsOf db ids) pid = demandOf db ids pid := by
  unfold requirementsOf demandOf
  rw [reqQty_foldl (fun sl => skuOf db sl.product_id)]
  simp [reqQty]

theorem pairwise_addRequirement {reqs : List (Nat × Int × String)} (k : Nat)
    (q : Int) (sku : String)
    (h : reqs.Pairwise (fun e1 e2 => e1.1 ≠ e2.1)) :
    (addRequirement reqs k q sku).Pairwise (fun e1 e2 => e1.1 ≠ e2.1) := by
  unfold addRequirement
  split
  · refine List.Pairwise.map _ ?_ h
    intro a b hab
    have ha : (if (a.1 == k) = true then (a.1, a.2.1 + q, a.2.2) else a).1 = a.1 := by
      split <;> rfl
    have hb : (if (b.1 == k) = true then (b.1, b.2.1 + q, b.2.2) else b).1 = b.1 := by
      split <;> rfl
    rw [ha, hb]
    exact hab
  · rename_i hany
    have hf : reqs.any (fun r => r.1 == k) = false := by
      revert hany
      cases reqs.any (fun r => r.1 == k) <;> simp
    rw [List.pairwise_append]
    refine ⟨h, List.pairwise_singleton _ _, ?_⟩
    intro a ha b hb
    have hbk : b = (k, q, sku) := by simpa using hb
    have := List.any_eq_false.mp hf a ha
    rw [hbk]
    simpa using this

theorem pairwise_foldl (g : ShipmentLine → String) (L : List ShipmentLine) :
    ∀ reqs : List (Nat × Int × String),
      reqs.Pairwise (fun e1 e2 => e1.1 ≠ e2.1) →
      (L.foldl (fun rs sl => addRequirement rs sl.product_id sl.quantity (g sl))
        reqs).Pairwise (fun e1 e2 => e1.1 ≠ e2.1) := by
  induction L with
  | nil => exact fun reqs h => h
  | cons sl t ih =>
    intro reqs h
    rw [List.foldl_cons]
    exact ih _ (pairwise_addRequirement _ _ _ h)

theorem pairwise_requirementsOf (db : DB) (ids : List Nat) :
    (requirementsOf db ids).Pairwise (fun e1 e2 => e1.1 ≠ e2.1) := by
  unfold requirementsOf
  exact pairwise_foldl _ _ [] List.Pairwise.nil

theorem entry_eq_reqQty {reqs : List (Nat × Int × String)}
    (hpw : reqs.Pairwise (fun e1 e2 => e1.1 ≠ e2.1)) {e : Nat × Int × String}
    (he : e ∈ reqs) : reqQty reqs e.1 = e.2.1 := by
  induction reqs with
  | nil => cases he
  | cons a t ih =>
    rcases List.pairwise_cons.mp hpw with ⟨hhead, htail⟩
    rcases List.mem_cons.mp he with rfl | hm
    · simp [reqQty]
    · have hne : a.1 ≠ e.1 := hhead e hm
      simp only [reqQty]
      rw [if_neg (by simpa using hne)]
      exact ih htail hm

theorem sku_addRequirement {db : DB} {reqs : List (Nat × Int × String)} (k : Nat)
    (q : Int) (h : ∀ e ∈ reqs, e.2.2 = skuOf db e.1) :
    ∀ e ∈ addRequirement reqs k q (skuOf db k), e.2.2 = skuOf db e.1 := by
  unfold addRequirement
  split
  · intro e he
    rcases List.mem_map.mp he with ⟨a, ha, hfa⟩
    by_cases hak : (a.1 == k) = true
    · rw [if_pos hak] at hfa
      rw [← hfa]
      exact h a ha
    · rw [if_neg hak] at hfa
      rw [← hfa]
      exact h a ha
  · intro e he
    rcases List.mem_append.mp he with hm | hm
    · exact h e hm
    · have he2 : e = (k, q, skuOf db k) := by simpa using hm
      rw [he2]

theorem sku_foldl (db : DB) (L : List ShipmentLine) :
    ∀ reqs : List (Nat × Int × String),
      (∀ e ∈ reqs, e.2.2 = skuOf db e.1) →
      ∀ e ∈ L.foldl (fun rs sl =>
          addRequirement rs sl.product_id sl.quantity (skuOf db sl.product_id)) reqs,
        e.2.2 = skuOf db e.1 := by
  induction L with
  | nil => exact fun reqs h => h
  | cons sl t ih =>
    intro reqs h
    rw [List.foldl_cons]
    exact ih _ (sku_addRequirement _ _ h)

theorem sku_requirementsOf (db : DB) (ids : List Nat) :
    ∀ e ∈ requirementsOf db ids, e.2.2 = skuOf db e.1 := by
  unfold requirementsOf
  exact sku_foldl db _ [] (fun e he => absurd he (List.not_mem_nil e))

theorem hasKey_addRequirement {reqs : List (Nat × Int × String)} (k : Nat)
    (q : Int) (sku : String) (pid : Nat) :
    hasKey (addRequirement reqs k q sku) pid ↔ hasKey reqs pid ∨ pid = k := by
  unfold addRequirement hasKey
  split
  · rename_i hany
    constructor
    · rintro ⟨e, he, hepid⟩
      rcases List.mem_map.mp he with ⟨a, ha, hfa⟩
      left
      refine ⟨a, ha, ?_⟩
      have : e.1 = a.1 := by
        rw [← hfa]
        split <;> rfl
      rw [← this, hepid]
    · rintro (⟨e, he, hepid⟩ | hpk)
      · refine ⟨(if (e.1 == k) = true then (e.1, e.2.1 + q, e.2.2) else e),
          List.mem_map_of_mem _ he, ?_⟩
        have h1 : (if (e.1 == k) = true then (e.1, e.2.1 + q, e.2.2) else e).1 = e.1 := by
          split <;> rfl
        rw [h1, hepid]
      · rcases List.any_eq_true.mp hany with ⟨e, he, hek⟩
        have hek2 : e.1 = k := by simpa using hek
        refine ⟨(if (e.1 == k) = true then (e.1, e.2.1 + q, e.2.2) else e),
          List.mem_map_of_mem _ he, ?_⟩
        have h1 : (if (e.1 == k) = true then (e.1, e.2.1 + q, e.2.2) else e).1 = e.1 := by
          split <;> rfl
        rw [h1, hek2, hpk]
  · constructor
    · rintro ⟨e, he, hepid⟩
      rcases List.mem_append.mp he with hm | hm
      · exact Or.inl ⟨e, hm, hepid⟩
      · have he2 : e = (k, q, sku) := by simpa using hm
        right
        rw [← hepid, he2]
    · rintro (⟨e, he, hepid⟩ | rfl)
      · exact ⟨e, List.mem_append_left _ he, hepid⟩
      · exact ⟨(pid, q, sku), List.mem_append_right _ (by simp), rfl⟩

theorem hasKey_foldl (g : ShipmentLine → String) (L : List ShipmentLine) :
    ∀ (reqs : List (Nat × Int × String)) (pid : Nat),
      hasKey (L.foldl (fun rs sl => addRequirement rs sl.product_id sl.quantity (g sl)) reqs) pid ↔
        hasKey reqs pid ∨ ∃ sl ∈ L, sl.product_id = pid := by
  induction L with
  | nil =>
    intro reqs pid
    simp [List.foldl_nil]
  | cons sl t ih =>
    intro reqs pid
    rw [List.foldl_cons, ih, hasKey_addRequirement]
    constructor
    · rintro ((h | h) | ⟨sl2, hm, hp⟩)
      · exact Or.inl h
      · exact Or.inr ⟨sl, List.mem_cons_self _ _, h.symm⟩
      · exact Or.inr ⟨sl2, List.mem_cons_of_mem _ hm, hp⟩
    · rintro (h | ⟨sl2, hm, hp⟩)
      · exact Or.inl (Or.inl h)
      · rcases List.mem_cons.mp hm with rfl | hm2
        · exact Or.inl (Or.inr hp.symm)
        · exact Or.inr ⟨sl2, hm2, hp⟩

theorem hasKey_requirementsOf (db : DB) (ids : List Nat) (pid : Nat) :
    hasKey (requirementsOf db ids) pid ↔
      ∃ sl ∈ db.shipment_lines, ids.contains sl.shipment_id = true ∧ sl.product_id = pid := by
  unfold requirementsOf
  rw [hasKey_foldl]
  constructor
  · rintro (⟨e, he, _⟩ | ⟨sl, hm, hp⟩)
    · exact absurd he (List.not_mem_nil e)
    · rcases List.mem_filter.mp hm with ⟨hmem, hc⟩
      exact ⟨sl, hmem, hc, hp⟩
  · rintro ⟨sl, hmem, hc, hp⟩
    exact Or.inr ⟨sl, List.mem_filter.mpr ⟨hmem, hc⟩, hp⟩

/-- C4 (amended). The commitment pre-check aggregates demand per product
over the proposed shipments' lines and compares it against the summed
ledger quantity of the product over ALL inventory rows — the source query
filters on product only, with no warehouse restriction: it reports
`can_fulfill` exactly when no shortage exists, every reported shortage
entry carries the product's sku and `missing = demand - supply` for a
genuinely under-supplied product, every demanded product whose global
supply is below its aggregate demand gets a shortage entry, and
`createWave` with a non-empty shipment list rejects outright when the
check reports `can_fulfill = false`, leaving the shipments untouched. -/
theorem claim4_commitment_check (db : DB) (ids : List Nat) :
    ((preCheckInventoryCommitment db ids).can_fulfill = true ↔
      (preCheckInventoryCommitment db ids).shortages = []) ∧
    (∀ sh ∈ (preCheckInventoryCommitment db ids).shortages,
      totalAvail db sh.product_id < demandOf db ids sh.product_id ∧
      sh.missing_qty = demandOf db ids sh.product_id - totalAvail db sh.product_id ∧
      sh.sku = skuOf db sh.product_id) ∧
    (∀ pid, hasKey (requirementsOf db ids) pid →
      totalAvail db pid < demandOf db ids pid →
      ∃ sh ∈ (preCheckInventoryCommitment db ids).shortages, sh.product_id = pid) ∧
    (∀ pid, hasKey (requirementsOf db ids) pid ↔
      ∃ sl ∈ db.shipment_lines, ids.contains sl.shipment_id = true ∧
        sl.product_id = pid) ∧
    (∀ w wid wn, ids ≠ [] → (preCheckInventoryCommitment db ids).can_fulfill = false →
      (createWave db w ids wid wn).2 = .error "Inventory Shortage: Cannot release wave." ∧
      (createWave db w ids wid wn).1.shipments = db.shipments) := by
  refine ⟨?_, ?_, ?_, fun pid => hasKey_requirementsOf db ids pid, ?_⟩
  · simp only [preCheckInventoryCommitment]
    exact List.isEmpty_iff
  · intro sh hsh
    simp only [preCheckInventoryCommitment] at hsh
    rcases List.mem_filterMap.mp hsh with ⟨r, hr, hfr⟩
    split at hfr
    · rename_i hlt
      simp only [Option.some.injEq] at hfr
      have hq : reqQty (requirementsOf db ids) r.1 = r.2.1 :=
        entry_eq_reqQty (pairwise_requirementsOf db ids) hr
      have hd : demandOf db ids r.1 = r.2.1 := by
        rw [← reqQty_requirementsOf db ids r.1]
        exact hq
      have hsku : r.2.2 = skuOf db r.1 := sku_requirementsOf db ids r hr
      rw [← hfr]
      refine ⟨?_, ?_, ?_⟩
      · show totalAvail db r.1 < demandOf db ids r.1
        rw [hd]
        exact hlt
      · show r.2.1 - totalAvail db r.1 = demandOf db ids r.1 - totalAvail db r.1
        rw [hd]
      · exact hsku
    · cases hfr
  · intro pid hk hlt
    obtain ⟨e, he, hepid⟩ := hk
    have hq : reqQty (requirementsOf db ids) e.1 = e.2.1 :=
      entry_eq_reqQty (pairwise_requirementsOf db ids) he
    rw [← hepid] at hlt
    have hd : demandOf db ids e.1 = e.2.1 := by
      rw [← reqQty_requirementsOf db ids e.1]
      exact hq
    rw [hd] at hlt
    refine ⟨⟨e.1, e.2.2, e.2.1 - totalAvail db e.1⟩, ?_, hepid⟩
    simp only [preCheckInventoryCommitment]
    exact List.mem_filterMap.mpr ⟨e, he, by rw [if_pos hlt]⟩
  · intro w wid wn hne hcf
    have hie : ids.isEmpty = false := by
      cases ids with
      | nil => exact absurd rfl hne
      | cons a t => rfl
    have hpc : (preCheckInventoryCommitment
        { db with waves := (⟨wid, w, wn, "pending", ids.length⟩ : Wave) :: db.waves }
        ids).can_fulfill = false := hcf
    unfold createWave
    rw [hie]
    rw [if_neg Bool.false_ne_true, hpc, if_neg Bool.false_ne_true]
    exact ⟨rfl, rfl⟩

/-- Counterexample to C4 as stated: the source pre-check sums supply with
no warehouse filter. In `dbCross` the warehouse-1 shipment demands 10 of
product 1 while warehouse 1 holds only 5 (10 more sit in warehouse 2):
the claim requires `can_fulfill = false` with a shortage of 5, but the
code finds global supply 15 and reports `can_fulfill = true` with no
shortage. -/
theorem claim4_counterexample :
    demandOf dbCross [100] 1 = 10 ∧
    specWarehouseSupply dbCross 1 1 = 5 ∧
    totalAvail dbCross 1 = 15 ∧
    (preCheckInventoryCommitment dbCross [100]).can_fulfill = true ∧
    (preCheckInventoryCommitment dbCross [100]).shortages = [] :=
  ⟨rfl, rfl, rfl, rfl, rfl⟩

/-- Witness for C4 (amended) at the commitment-gate scenario: two
shipments demanding 10 units each of product 1 against 15 on hand yield
`can_fulfill = false` with a single shortage of 5, and wave creation is
rejected without touching the shipments. -/
theorem claim4_commitment_check_witness :
    (preCheckInventoryCommitment dbGate [100, 101]).can_fulfill = false ∧
    (preCheckInventoryCommitment dbGate [100, 101]).shortages =
      [⟨1, "X", 5⟩] ∧
    demandOf dbGate [100, 101] 1 = 20 ∧ totalAvail dbGate 1 = 15 ∧
    (createWave dbGate 1 [100, 101] 500 "W1").2 =
      .error "Inventory Shortage: Cannot release wave." ∧
    (createWave dbGate 1 [100, 101] 500 "W1").1.shipments = dbGate.shipments :=
  ⟨rfl, rfl, rfl, rfl,
   ((claim4_commitment_check dbGate [100, 101]).2.2.2.2 1 500 "W1" (by decide) rfl).1,
   ((claim4_commitment_check dbGate [100, 101]).2.2.2.2 1 500 "W1" (by decide) rfl).2⟩
